import Mathlib

/-!
Shallow embedding of the affiliate-marketing back office
(handlers for commission, registrations, payouts, affiliate codes,
statistics and authentication) together with theorems checking the
natural-language specification against the code.

Conventions of the embedding:
* the relational store is a record of five lists (`DB`);
* monetary values (stored as decimal text and handled as JS numbers)
  are modelled as exact rationals `ℚ`; the text/number conversions at
  the store boundary (`toString` / `parseFloat`) are the identity in
  this model, per the exact-decimal contract of the spec;
* timestamps are abstract `Nat` instants supplied by the caller
  (`new Date()` / `Date.now()` become an explicit `now` argument);
* fallible handlers return `Except String α`, the `String` being the
  thrown error message; a handler that throws before writing returns
  `Except.error` and no updated `DB`, so "no partial write" is
  represented by the result type;
* randomness (`Math.random()`) is modelled as an explicit stream of
  the already-extracted candidate strings;
* the SHA-256 password hash is an abstract parameter
  `hash : String → String`;
* fresh row ids (SQL `serial`) are passed in as `newId`.
-/

namespace AffiliateSystem

/-- User role enum (`user_role`). -/
inductive Role where
  | affiliate
  | admin
deriving DecidableEq, Repr

/-- Commission type enum (`commission_type`). -/
inductive CommissionType where
  | percentage
  | flat
deriving DecidableEq, Repr

/-- Program type enum (`program_type`). -/
inductive ProgramType where
  | online
  | offline_pare
  | rombongan
  | cabang
deriving DecidableEq, Repr

/-- Registration status enum (`registration_status`). -/
inductive RegStatus where
  | pending
  | payment_verified
deriving DecidableEq, Repr

/-- Payout status enum (`payout_status`). -/
inductive PayStatus where
  | pending
  | paid
deriving DecidableEq, Repr

/-- A row of `users` (db/schema.ts). -/
structure User where
  id : Nat
  email : String
  password_hash : String
  full_name : String
  role : Role
  affiliate_code : Option String
deriving DecidableEq, Repr

/-- A row of `programs` (db/schema.ts); `fee` and `commission_rate`
are the decimal columns, modelled as exact rationals. -/
structure Program where
  id : Nat
  name : String
  ptype : ProgramType
  fee : ℚ
  commission_rate : ℚ
  commission_type : CommissionType
  description : Option String
  is_active : Bool
deriving DecidableEq, Repr

/-- A row of `registrations` (db/schema.ts). -/
structure Registration where
  id : Nat
  affiliate_id : Nat
  program_id : Nat
  student_name : String
  student_email : String
  student_phone : String
  status : RegStatus
  commission_amount : ℚ
  registration_date : Nat
  payment_verified_at : Option Nat
  updated_at : Nat
deriving DecidableEq, Repr

/-- A row of `link_clicks` (db/schema.ts). -/
structure LinkClick where
  id : Nat
  affiliate_id : Nat
  ip_address : String
  user_agent : Option String
  clicked_at : Nat
deriving DecidableEq, Repr

/-- A row of `payout_requests` (db/schema.ts). -/
structure PayoutRequest where
  id : Nat
  affiliate_id : Nat
  amount : ℚ
  bank_name : String
  account_number : String
  account_holder_name : String
  status : PayStatus
  requested_at : Nat
  processed_at : Option Nat
  updated_at : Nat
deriving DecidableEq, Repr

/-- The relational store: one list per table. -/
structure DB where
  users : List User
  programs : List Program
  registrations : List Registration
  linkClicks : List LinkClick
  payouts : List PayoutRequest
deriving DecidableEq, Repr

/-- SQL `sum(...)` over a column: `NULL` (here `none`) on an empty row
set, otherwise the sum.  The handlers convert the `NULL` back to `0`
(`parseFloat(x || '0')` resp. `result?.total ? parseFloat(...) : 0`,
both of which also send the string "0" to the number 0). -/
def sqlSum (l : List ℚ) : Option ℚ :=
  match l with
  | [] => none
  | _ => some l.sum

/-- handlers/commission.ts, `calculateCommission`: two-branch rule with
a final `Math.max(0, commission)` clamp; `commission` starts at 0 and
is only assigned in the `percentage` / `flat` branches. -/
def calculateCommission (program : Program) : ℚ :=
  let commission : ℚ :=
    if program.commission_type == CommissionType.percentage then
      program.fee * program.commission_rate / 100
    else if program.commission_type == CommissionType.flat then
      program.commission_rate
    else 0
  max 0 commission

/-- Input schema `createRegistrationInputSchema`. -/
structure CreateRegistrationInput where
  affiliate_code : String
  program_id : Nat
  student_name : String
  student_email : String
  student_phone : String
deriving DecidableEq, Repr

/-- The inline commission computation of `createRegistration`
(registrations handler, lines 38-44): a plain conditional with no
clamp of negative values. -/
def inlineCommission (program : Program) : ℚ :=
  if program.commission_type == CommissionType.percentage then
    program.fee * program.commission_rate / 100
  else
    program.commission_rate

/-- Registrations handler, `createRegistration`: look up the affiliate
by code (role `affiliate`), look up the program by id among active
programs, compute the commission inline, insert a `pending`
registration.  `payment_verified_at` is not set by the insert, so it
takes the column's `NULL` default. -/
def createRegistration (db : DB) (input : CreateRegistrationInput)
    (now newId : Nat) : Except String (DB × Registration) :=
  match db.users.filter (fun u =>
      u.affiliate_code == some input.affiliate_code &&
      u.role == Role.affiliate) with
  | [] => Except.error "Affiliate not found"
  | affiliate :: _ =>
    match db.programs.filter (fun p =>
        p.id == input.program_id && p.is_active) with
    | [] => Except.error "Program not found or inactive"
    | program :: _ =>
      let registration : Registration :=
        { id := newId
          affiliate_id := affiliate.id
          program_id := input.program_id
          student_name := input.student_name
          student_email := input.student_email
          student_phone := input.student_phone
          status := RegStatus.pending
          commission_amount := inlineCommission program
          registration_date := now
          payment_verified_at := none
          updated_at := now }
      Except.ok ({ db with registrations := db.registrations ++ [registration] },
        registration)

/-- Registrations handler, `verifyPayment`: one `UPDATE ... WHERE id =`
setting status, `payment_verified_at` and `updated_at`; errors when the
update matched no row.  There is no precondition on the current status. -/
def verifyPayment (db : DB) (registrationId : Nat) (now : Nat) :
    Except String DB :=
  if (db.registrations.filter (fun r => r.id == registrationId)).isEmpty then
    Except.error "Registration not found"
  else
    Except.ok { db with registrations := db.registrations.map (fun r =>
      if r.id == registrationId then
        { r with
            status := RegStatus.payment_verified
            payment_verified_at := some now
            updated_at := now }
      else r) }

/-- Registrations handler, `getRegistrationsByAffiliate`: an unguarded
filter query; no existence check on the affiliate id, no throw path. -/
def getRegistrationsByAffiliate (db : DB) (affiliateId : Nat) :
    Except String (List Registration) :=
  Except.ok (db.registrations.filter (fun r => r.affiliate_id == affiliateId))

/-- Tracking handler, `getLinkClicksByAffiliate`: an unguarded filter
query; no existence check on the affiliate id, no throw path. -/
def getLinkClicksByAffiliate (db : DB) (affiliateId : Nat) :
    Except String (List LinkClick) :=
  Except.ok (db.linkClicks.filter (fun c => c.affiliate_id == affiliateId))

/-- Response schema `affiliateStatsSchema`: five non-nullable numeric
fields. -/
structure AffiliateStats where
  total_clicks : Nat
  total_registrations : Nat
  total_commission : ℚ
  pending_commission : ℚ
  verified_commission : ℚ
deriving DecidableEq, Repr

/-- Tracking handler, `getAffiliateStats`: five independent aggregate
queries, each defaulted to zero when the row set is empty; no existence
check on the affiliate id, no throw path. -/
def getAffiliateStats (db : DB) (affiliateId : Nat) :
    Except String AffiliateStats :=
  let totalClicks :=
    (db.linkClicks.filter (fun c => c.affiliate_id == affiliateId)).length
  let totalRegistrations :=
    (db.registrations.filter (fun r => r.affiliate_id == affiliateId)).length
  let totalCommission :=
    (sqlSum ((db.registrations.filter (fun r =>
      r.affiliate_id == affiliateId)).map
        (fun r => r.commission_amount))).getD 0
  let pendingCommission :=
    (sqlSum ((db.registrations.filter (fun r =>
      r.affiliate_id == affiliateId &&
      r.status == RegStatus.pending)).map
        (fun r => r.commission_amount))).getD 0
  let verifiedCommission :=
    (sqlSum ((db.registrations.filter (fun r =>
      r.affiliate_id == affiliateId &&
      r.status == RegStatus.payment_verified)).map
        (fun r => r.commission_amount))).getD 0
  Except.ok
    { total_clicks := totalClicks
      total_registrations := totalRegistrations
      total_commission := totalCommission
      pending_commission := pendingCommission
      verified_commission := verifiedCommission }

/-- Input schema `createPayoutRequestInputSchema`. -/
structure CreatePayoutRequestInput where
  amount : ℚ
  bank_name : String
  account_number : String
  account_holder_name : String
deriving DecidableEq, Repr

/-- Payouts handler, lines 18-29: sum of `commission_amount` over this
affiliate's `payment_verified` registrations, `NULL` defaulted to 0. -/
def totalVerifiedCommission (db : DB) (affiliateId : Nat) : ℚ :=
  (sqlSum ((db.registrations.filter (fun r =>
    r.affiliate_id == affiliateId &&
    r.status == RegStatus.payment_verified)).map
      (fun r => r.commission_amount))).getD 0

/-- Payouts handler, lines 31-39: sum of `amount` over all of this
affiliate's payout requests, with no filter on their status, `NULL`
defaulted to 0. -/
def totalPayoutRequests (db : DB) (affiliateId : Nat) : ℚ :=
  (sqlSum ((db.payouts.filter (fun p =>
    p.affiliate_id == affiliateId)).map
      (fun p => p.amount))).getD 0

/-- Payouts handler, line 42: `availableCommission`. -/
def availableCommission (db : DB) (affiliateId : Nat) : ℚ :=
  totalVerifiedCommission db affiliateId - totalPayoutRequests db affiliateId

/-- Payouts handler, `createPayoutRequest`: affiliate existence check
(role `affiliate`), balance check `availableCommission < amount` →
error, otherwise insert a `pending` payout with `processed_at` null. -/
def createPayoutRequest (db : DB) (affiliateId : Nat)
    (input : CreatePayoutRequestInput) (now newId : Nat) :
    Except String (DB × PayoutRequest) :=
  if (db.users.filter (fun u =>
      u.id == affiliateId && u.role == Role.affiliate)).isEmpty then
    Except.error "Affiliate not found"
  else if availableCommission db affiliateId < input.amount then
    Except.error "Insufficient verified commission balance"
  else
    let payoutRequest : PayoutRequest :=
      { id := newId
        affiliate_id := affiliateId
        amount := input.amount
        bank_name := input.bank_name
        account_number := input.account_number
        account_holder_name := input.account_holder_name
        status := PayStatus.pending
        requested_at := now
        processed_at := none
        updated_at := now }
    Except.ok ({ db with payouts := db.payouts ++ [payoutRequest] },
      payoutRequest)

/-- Input schema `updatePayoutStatusInputSchema`. -/
structure UpdatePayoutStatusInput where
  id : Nat
  status : PayStatus
deriving DecidableEq, Repr

/-- The row transformation of `updatePayoutStatus`: for the matching
id, set the status and `updated_at`, and set `processed_at := now`
whenever the new status is `paid` (the source guards only on
`input.status === 'paid'`, not on `processed_at` being unset). -/
def applyPayoutUpdate (input : UpdatePayoutStatusInput) (now : Nat)
    (p : PayoutRequest) : PayoutRequest :=
  if p.id == input.id then
    { p with
        status := input.status
        updated_at := now
        processed_at :=
          if input.status == PayStatus.paid then some now else p.processed_at }
  else p

/-- Payouts handler, `updatePayoutStatus`: existence check on the
payout id, then the update of the matching row. -/
def updatePayoutStatus (db : DB) (input : UpdatePayoutStatusInput)
    (now : Nat) : Except String DB :=
  if (db.payouts.filter (fun p => p.id == input.id)).isEmpty then
    Except.error "Payout request not found"
  else
    Except.ok { db with payouts := db.payouts.map (applyPayoutUpdate input now) }

/-- A sequence of `updatePayoutStatus` calls, each with its own
timestamp; a call that errors leaves the store unchanged. -/
def runPayoutUpdates (db : DB) (cmds : List (UpdatePayoutStatusInput × Nat)) :
    DB :=
  cmds.foldl (fun d c =>
    match updatePayoutStatus d c.1 c.2 with
    | Except.ok d2 => d2
    | Except.error _ => d) db

/-- Payouts handler, `getPayoutRequestsByAffiliate`: unlike the other
per-affiliate reads, this one first checks that a user with this id and
role `affiliate` exists and throws otherwise. -/
def getPayoutRequestsByAffiliate (db : DB) (affiliateId : Nat) :
    Except String (List PayoutRequest) :=
  if (db.users.filter (fun u =>
      u.id == affiliateId && u.role == Role.affiliate)).isEmpty then
    Except.error "Affiliate not found"
  else
    Except.ok (db.payouts.filter (fun p => p.affiliate_id == affiliateId))

/-- JS `String.prototype.toUpperCase` over the characters appearing in
the generated codes (ASCII): uppercase each character. -/
def strUpper (s : String) : String :=
  String.mk (s.data.map Char.toUpper)

/-- Whether some user already owns this affiliate code
(`select ... where eq(usersTable.affiliate_code, code)`). -/
def codeExists (db : DB) (code : String) : Bool :=
  db.users.any (fun u => u.affiliate_code == some code)

/-- Whether some user already has this email. -/
def emailExists (db : DB) (email : String) : Bool :=
  db.users.any (fun u => u.email == email)

/-- Affiliate handler, the retry loop of `generateUniqueAffiliateCode`:
each attempt draws the next candidate suffix from the stream, uppercases
it, prepends `AFF` and accepts the code when no user owns it yet;
`none` after `attemptsLeft` failed attempts.  The candidate stream holds
the raw `Math.random().toString(36).substring(2, 7)` values. -/
def genCodeLoop (db : DB) : List String → Nat → Option String
  | _, 0 => none
  | [], _ + 1 => none
  | cand :: rest, attemptsLeft + 1 =>
    if codeExists db ("AFF" ++ strUpper cand) then genCodeLoop db rest attemptsLeft
    else some ("AFF" ++ strUpper cand)

/-- `Date.now().toString().slice(-6)`: the last six decimal digits of
the timestamp (the whole string when it is shorter). -/
def lastSix (t : Nat) : String :=
  let s := toString t
  s.drop (s.length - 6)

/-- Affiliate handler, `generateUniqueAffiliateCode`: up to
`maxAttempts = 10` random candidates checked for uniqueness, then the
timestamp fallback `` `AFF${timestamp}` `` which is not re-checked. -/
def generateUniqueAffiliateCode (db : DB) (cands : List String)
    (timestamp : Nat) : String :=
  match genCodeLoop db cands 10 with
  | some code => code
  | none => "AFF" ++ lastSix timestamp

/-- Digit characters of JS `Number.prototype.toString(36)` after
`toUpperCase()`: 0-9 then A-Z. -/
def base36DigitChar (d : Nat) : Char :=
  if d < 10 then Char.ofNat (48 + d) else Char.ofNat (55 + d)

/-- Base-36 digit list of a natural number, most significant first,
uppercase (JS `t.toString(36)` followed by the handler's
`toUpperCase()`); the structural `fuel` bounds the digit count and
`n + 1` always suffices since `n / 36 < n` for `n ≥ 36`. -/
def toBase36UpperGo : Nat → Nat → List Char → List Char
  | 0, _, acc => acc
  | fuel + 1, n, acc =>
    if n < 36 then base36DigitChar n :: acc
    else toBase36UpperGo fuel (n / 36) (base36DigitChar (n % 36) :: acc)

/-- String form of the base-36 digits of `n`. -/
def toBase36Upper (n : Nat) : String :=
  String.mk (toBase36UpperGo (n + 1) n [])

/-- Auth handler, the local `generateAffiliateCode` used by
`registerUser`: `` `AFF${timestamp36}${random}` `` uppercased, where
`timestamp36` is `Date.now().toString(36)` and `random` is
`Math.random().toString(36).substr(2, 5)`.  `AFF` and the base-36
digits are already uppercase, so the source's final `toUpperCase()`
acts on the random part. -/
def generateAffiliateCode (t : Nat) (rand : String) : String :=
  "AFF" ++ (toBase36Upper t ++ strUpper rand)

/-- Auth handler, the `while (!isUnique)` loop of `registerUser`:
attempt `i` generates `gen i` and accepts it when no user owns it; the
source loop has no attempt bound and no fallback, so the model burns
`fuel` and returns `none` when the supplied fuel runs out with every
generated code colliding. -/
def registerCodeLoop (db : DB) (gen : Nat → String) :
    Nat → Nat → Option String
  | _, 0 => none
  | i, fuel + 1 =>
    if codeExists db (gen i) then registerCodeLoop db gen (i + 1) fuel
    else some (gen i)

/-- Input schema `createUserInputSchema`. -/
structure CreateUserInput where
  email : String
  password : String
  full_name : String
  role : Role
deriving DecidableEq, Repr

/-- Auth handler, `registerUser`: duplicate-email check, password
hashing, affiliate-code generation for role `affiliate` (null code for
admins), then the insert.  `ts`/`rs` are the timestamp and randomness
streams feeding `generateAffiliateCode` at each loop iteration; the
model-only error marks the case where the unbounded source loop never
found a fresh code within `fuel` iterations. -/
def registerUser (hash : String → String) (db : DB)
    (input : CreateUserInput) (ts : Nat → Nat) (rs : Nat → String)
    (fuel newId : Nat) : Except String (DB × User) :=
  if emailExists db input.email then
    Except.error "Email already exists"
  else
    let genResult : Except String (Option String) :=
      if input.role == Role.affiliate then
        match registerCodeLoop db
            (fun i => generateAffiliateCode (ts i) (rs i)) 0 fuel with
        | some code => Except.ok (some code)
        | none => Except.error "model: code generation loop exceeded its fuel"
      else Except.ok none
    match genResult with
    | Except.error e => Except.error e
    | Except.ok affiliateCode =>
      let user : User :=
        { id := newId
          email := input.email
          password_hash := hash input.password
          full_name := input.full_name
          role := input.role
          affiliate_code := affiliateCode }
      Except.ok ({ db with users := db.users ++ [user] }, user)

/-- Input schema `loginInputSchema`. -/
structure LoginInput where
  email : String
  password : String
deriving DecidableEq, Repr

/-- Concrete affiliate user shared by the concrete test stores. -/
def exAffiliate : User :=
  { id := 1
    email := "affiliate@test.com"
    password_hash := "pw-hash"
    full_name := "Test Affiliate"
    role := Role.affiliate
    affiliate_code := some "AFF123" }

/-- Concrete admin user shared by the concrete test stores. -/
def exAdmin : User :=
  { id := 2
    email := "admin@test.com"
    password_hash := "pw-hash-admin"
    full_name := "Test Admin"
    role := Role.admin
    affiliate_code := none }

/-- Flat-commission program with the spec's negative stored rate
(rate = -50,000). -/
def negativeFlatProgram : Program :=
  { id := 7
    name := "Negative Rate Program"
    ptype := ProgramType.rombongan
    fee := 1000000
    commission_rate := -50000
    commission_type := CommissionType.flat
    description := none
    is_active := true }

/-- An active percentage program: fee 1,000,000 at 10 %. -/
def exProgram : Program :=
  { id := 3
    name := "Test Program"
    ptype := ProgramType.online
    fee := 1000000
    commission_rate := 10
    commission_type := CommissionType.percentage
    description := none
    is_active := true }

/-- A `payment_verified` registration worth 100,000 for affiliate 1. -/
def exVerifiedReg : Registration :=
  { id := 1
    affiliate_id := 1
    program_id := 3
    student_name := "Student"
    student_email := "student@test.com"
    student_phone := "0800"
    status := RegStatus.payment_verified
    commission_amount := 100000
    registration_date := 0
    payment_verified_at := some 1
    updated_at := 1 }

/-- A still-`pending` registration for affiliate 1. -/
def exPendingReg : Registration :=
  { id := 2
    affiliate_id := 1
    program_id := 3
    student_name := "Student B"
    student_email := "studentb@test.com"
    student_phone := "0801"
    status := RegStatus.pending
    commission_amount := 100000
    registration_date := 0
    payment_verified_at := none
    updated_at := 0 }

/-- A prior payout of 60,000 for affiliate 1, still `pending`. -/
def exPriorPayout : PayoutRequest :=
  { id := 1
    affiliate_id := 1
    amount := 60000
    bank_name := "Bank"
    account_number := "123"
    account_holder_name := "Test Affiliate"
    status := PayStatus.pending
    requested_at := 2
    processed_at := none
    updated_at := 2 }

/-- The §8 payout scenario: one verified registration worth 100,000 and
one prior payout of 60,000 for affiliate 1 (available balance 40,000). -/
def exPayoutDB : DB :=
  { users := [exAffiliate, exAdmin]
    programs := [exProgram]
    registrations := [exVerifiedReg]
    linkClicks := []
    payouts := [exPriorPayout] }

/-- Payout request for 50,000 (more than the 40,000 balance). -/
def exPayoutInput50 : CreatePayoutRequestInput :=
  { amount := 50000
    bank_name := "Bank"
    account_number := "123"
    account_holder_name := "Test Affiliate" }

/-- Payout request for exactly the 40,000 balance. -/
def exPayoutInput40 : CreatePayoutRequestInput :=
  { amount := 40000
    bank_name := "Bank"
    account_number := "123"
    account_holder_name := "Test Affiliate" }

/-- Store holding the affiliate and the negative-rate flat program. -/
def negRateDB : DB :=
  { users := [exAffiliate]
    programs := [negativeFlatProgram]
    registrations := []
    linkClicks := []
    payouts := [] }

/-- Registration input signing up through `AFF123` for program 7. -/
def negRateRegInput : CreateRegistrationInput :=
  { affiliate_code := "AFF123"
    program_id := 7
    student_name := "Student"
    student_email := "student@test.com"
    student_phone := "0800"}

/-- Registration input signing up through `AFF123` for program 3. -/
def exRegInput : CreateRegistrationInput :=
  { affiliate_code := "AFF123"
    program_id := 3
    student_name := "Student"
    student_email := "student@test.com"
    student_phone := "0800"}

/-- Store with one pending registration (id 2) for affiliate 1. -/
def exRegDB : DB :=
  { users := [exAffiliate, exAdmin]
    programs := [exProgram]
    registrations := [exPendingReg]
    linkClicks := []
    payouts := [] }

/-- Store with one pending payout (id 1) for affiliate 1, used for the
`processed_at` update sequences. -/
def exStatusDB : DB :=
  { users := [exAffiliate]
    programs := []
    registrations := []
    linkClicks := []
    payouts := [exPriorPayout] }

/-- Store with only the admin user and no activity rows. -/
def adminOnlyDB : DB :=
  { users := [exAdmin]
    programs := []
    registrations := []
    linkClicks := []
    payouts := [] }

/-- Store with no rows at all. -/
def emptyDB : DB :=
  { users := []
    programs := []
    registrations := []
    linkClicks := []
    payouts := [] }

/-- Affiliate-role registration input for `registerUser`. -/
def exCreateUserInput : CreateUserInput :=
  { email := "new@test.com"
    password := "password123"
    full_name := "New Affiliate"
    role := Role.affiliate }

/-- Auth handler, `loginUser`: `select ... limit(1)` on the email, the
same message for the no-user case and the wrong-password case. -/
def loginUser (hash : String → String) (db : DB) (input : LoginInput) :
    Except String User :=
  match db.users.find? (fun u => u.email == input.email) with
  | none => Except.error "Invalid email or password"
  | some user =>
    if hash input.password != user.password_hash then
      Except.error "Invalid email or password"
    else
      Except.ok user

/-! ## Helper lemmas -/

/-- Summing after the SQL `NULL`-to-zero default is the plain sum. -/
theorem sqlSum_getD_eq_sum (l : List ℚ) : (sqlSum l).getD 0 = l.sum := by
  cases l <;> simp [sqlSum]

/-- A filter over a list containing a witness of the predicate is not
empty. -/
theorem filter_isEmpty_eq_false_of_mem {α : Type} {p : α → Bool}
    {l : List α} {a : α} (ha : a ∈ l) (hpa : p a = true) :
    (l.filter p).isEmpty = false := by
  have hmem : a ∈ l.filter p := List.mem_filter.mpr ⟨ha, hpa⟩
  cases h : l.filter p with
  | nil => rw [h] at hmem; exact absurd hmem (List.not_mem_nil a)
  | cons b t => simp

/-! ## C2: the commission rule -/

/-- C2: for every program, `calculateCommission` returns
`fee * rate / 100` when the commission type is `percentage` and the
rate itself when it is `flat`, in both cases clamped to zero from
below, so the result is never negative; in particular a negative flat
rate yields commission 0. -/
theorem calculateCommission_rule (program : Program) :
    0 ≤ calculateCommission program ∧
    (program.commission_type = CommissionType.percentage →
      calculateCommission program =
        max 0 (program.fee * program.commission_rate / 100)) ∧
    (program.commission_type = CommissionType.flat →
      calculateCommission program = max 0 program.commission_rate) ∧
    (program.commission_type = CommissionType.flat →
      program.commission_rate < 0 → calculateCommission program = 0) := by
  refine ⟨le_max_left _ _, ?_, ?_, ?_⟩
  · intro h
    simp [calculateCommission, h]
  · intro h
    simp [calculateCommission, h]
  · intro h hneg
    simp [calculateCommission, h, max_eq_left_iff.mpr (le_of_lt hneg)]

/-- Witness for C2 at the spec's own example: a flat program with rate
-50,000 yields commission 0. -/
theorem calculateCommission_rule_witness :
    calculateCommission negativeFlatProgram = 0 :=
  (calculateCommission_rule negativeFlatProgram).2.2.2 rfl
    (by norm_num [negativeFlatProgram])

/-! ## C8: statistics default to zero -/

/-- C8: `getAffiliateStats` always succeeds, and for an affiliate id
with no matching click or registration rows every one of the five
fields is zero — no null field and no error. -/
theorem getAffiliateStats_zero_defaults (db : DB) (affiliateId : Nat) :
    (∃ stats, getAffiliateStats db affiliateId = Except.ok stats) ∧
    ((∀ c ∈ db.linkClicks, c.affiliate_id ≠ affiliateId) →
      (∀ r ∈ db.registrations, r.affiliate_id ≠ affiliateId) →
      getAffiliateStats db affiliateId = Except.ok
        { total_clicks := 0
          total_registrations := 0
          total_commission := 0
          pending_commission := 0
          verified_commission := 0 }) := by
  constructor
  · exact ⟨_, rfl⟩
  · intro hc hr
    have hcf : db.linkClicks.filter (fun c => c.affiliate_id == affiliateId) = [] :=
      List.filter_eq_nil_iff.mpr (fun c hcm => by simp [hc c hcm])
    have hrf : db.registrations.filter (fun r => r.affiliate_id == affiliateId) = [] :=
      List.filter_eq_nil_iff.mpr (fun r hrm => by simp [hr r hrm])
    have hrp : db.registrations.filter (fun r =>
        r.affiliate_id == affiliateId && r.status == RegStatus.pending) = [] :=
      List.filter_eq_nil_iff.mpr (fun r hrm => by simp [hr r hrm])
    have hrv : db.registrations.filter (fun r =>
        r.affiliate_id == affiliateId && r.status == RegStatus.payment_verified) = [] :=
      List.filter_eq_nil_iff.mpr (fun r hrm => by simp [hr r hrm])
    simp [getAffiliateStats, hcf, hrf, hrp, hrv, sqlSum]

/-- Witness for C8: the admin-only store has no activity rows for id 2,
and the stats come back all zero. -/
theorem getAffiliateStats_zero_defaults_witness :
    getAffiliateStats adminOnlyDB 2 = Except.ok
      { total_clicks := 0
        total_registrations := 0
        total_commission := 0
        pending_commission := 0
        verified_commission := 0 } :=
  (getAffiliateStats_zero_defaults adminOnlyDB 2).2
    (by intro c hc; simp [adminOnlyDB] at hc)
    (by intro r hr; simp [adminOnlyDB] at hr)

/-! ## C10: uniform login failure message -/

/-- C10: `loginUser` fails with the identical message
"Invalid email or password" both when no user has the email and when
the hashed password differs, so any two failing login attempts are
observationally equal and the caller cannot tell whether an email is
registered. -/
theorem loginUser_uniform_error (hash : String → String) (db : DB)
    (input : LoginInput) :
    (∀ msg, loginUser hash db input = Except.error msg →
      msg = "Invalid email or password") ∧
    ((¬∃ u ∈ db.users, u.email = input.email) →
      loginUser hash db input = Except.error "Invalid email or password") ∧
    (∀ u, db.users.find? (fun v => v.email == input.email) = some u →
      hash input.password ≠ u.password_hash →
      loginUser hash db input = Except.error "Invalid email or password") ∧
    (∀ input2 msg msg2, loginUser hash db input = Except.error msg →
      loginUser hash db input2 = Except.error msg2 → msg = msg2) := by
  have herr : ∀ (inp : LoginInput) (msg : String),
      loginUser hash db inp = Except.error msg →
      msg = "Invalid email or password" := by
    intro inp msg h
    unfold loginUser at h
    cases hfind : db.users.find? (fun v => v.email == inp.email) with
    | none =>
      rw [hfind] at h
      injection h with h1
      exact h1.symm
    | some u =>
      rw [hfind] at h
      dsimp only at h
      by_cases hpw : (hash inp.password != u.password_hash) = true
      · rw [if_pos hpw] at h
        injection h with h1
        exact h1.symm
      · rw [if_neg hpw] at h
        cases h
  refine ⟨herr input, ?_, ?_, ?_⟩
  · intro hne
    have hfind : db.users.find? (fun v => v.email == input.email) = none :=
      List.find?_eq_none.mpr (fun u hu hbeq =>
        hne ⟨u, hu, by simpa using hbeq⟩)
    simp [loginUser, hfind]
  · intro u hfind hpw
    simp [loginUser, hfind, hpw]
  · intro input2 msg msg2 h1 h2
    rw [herr input msg h1, herr input2 msg2 h2]

/-- Witness for C10: an unknown email and a known email with the wrong
password both fail, and the two messages agree. -/
theorem loginUser_uniform_error_witness :
    loginUser (fun s => s) exPayoutDB
      { email := "nobody@test.com", password := "x" } =
      Except.error "Invalid email or password" :=
  (loginUser_uniform_error (fun s => s) exPayoutDB
    { email := "nobody@test.com", password := "x" }).2.1
    (by
      rintro ⟨u, hu, hmail⟩
      simp [exPayoutDB, exAffiliate, exAdmin] at hu
      rcases hu with h | h <;> simp [h, exAffiliate, exAdmin] at hmail)

/-! ## C4: verifyPayment -/

/-- C4: `verifyPayment` errors exactly when the registration id does
not exist; on success every row with that id has status
`payment_verified` and a freshly stamped non-null
`payment_verified_at`, rows with other ids are untouched, and an
existing id always succeeds — also when the row was already verified,
in which case the timestamp is simply re-stamped with `now`. -/
theorem verifyPayment_spec (db : DB) (registrationId now : Nat) :
    (verifyPayment db registrationId now =
        Except.error "Registration not found" ↔
      ¬∃ r ∈ db.registrations, r.id = registrationId) ∧
    (∀ db2, verifyPayment db registrationId now = Except.ok db2 →
      (∀ r ∈ db2.registrations, r.id = registrationId →
        r.status = RegStatus.payment_verified ∧
        r.payment_verified_at = some now) ∧
      (∀ r ∈ db2.registrations, r.id ≠ registrationId →
        r ∈ db.registrations)) ∧
    ((∃ r ∈ db.registrations, r.id = registrationId) →
      ∃ db2, verifyPayment db registrationId now = Except.ok db2) := by
  by_cases hemp :
      (db.registrations.filter (fun r => r.id == registrationId)).isEmpty = true
  · have hnil : db.registrations.filter (fun r => r.id == registrationId) = [] :=
      List.isEmpty_iff.mp hemp
    have hno : ¬∃ r ∈ db.registrations, r.id = registrationId := by
      rintro ⟨r, hr, hid⟩
      have hmem : r ∈ db.registrations.filter (fun r => r.id == registrationId) :=
        List.mem_filter.mpr ⟨hr, by simp [hid]⟩
      rw [hnil] at hmem
      exact absurd hmem (List.not_mem_nil r)
    refine ⟨⟨fun _ => hno, fun _ => by rw [verifyPayment, if_pos hemp]⟩, ?_, ?_⟩
    · intro db2 h
      rw [verifyPayment, if_pos hemp] at h
      cases h
    · intro hex
      exact absurd hex hno
  · have hok : verifyPayment db registrationId now = Except.ok
        { db with registrations := db.registrations.map (fun r =>
          if r.id == registrationId then
            { r with
                status := RegStatus.payment_verified
                payment_verified_at := some now
                updated_at := now }
          else r) } := by
      rw [verifyPayment, if_neg hemp]
    have hex : ∃ r ∈ db.registrations, r.id = registrationId := by
      cases hfil : db.registrations.filter (fun r => r.id == registrationId) with
      | nil => exact absurd (List.isEmpty_iff.mpr hfil) hemp
      | cons a t =>
        have hmem : a ∈ db.registrations.filter (fun r => r.id == registrationId) := by
          rw [hfil]; exact List.mem_cons_self a t
        obtain ⟨ha, hpa⟩ := List.mem_filter.mp hmem
        exact ⟨a, ha, by simpa using hpa⟩
    refine ⟨⟨fun h => (by rw [hok] at h; cases h), fun h => absurd hex h⟩, ?_,
      fun _ => ⟨_, hok⟩⟩
    intro db2 h
    rw [hok] at h
    injection h with h1
    subst h1
    constructor
    · intro r hr hid
      obtain ⟨r0, hr0, hfr⟩ := List.mem_map.mp hr
      by_cases hmatch : (r0.id == registrationId) = true
      · rw [if_pos hmatch] at hfr
        rw [← hfr]
        exact ⟨rfl, rfl⟩
      · rw [if_neg hmatch] at hfr
        subst hfr
        exact absurd hid (by simpa using hmatch)
    · intro r hr hid
      obtain ⟨r0, hr0, hfr⟩ := List.mem_map.mp hr
      by_cases hmatch : (r0.id == registrationId) = true
      · rw [if_pos hmatch] at hfr
        have : r.id = registrationId := by
          rw [← hfr]
          simpa using hmatch
        exact absurd this hid
      · rw [if_neg hmatch] at hfr
        subst hfr
        exact hr0

/-- Witness for C4: a missing id 99 yields the not-found error, while
the existing pending registration id 2 does not. -/
theorem verifyPayment_spec_witness :
    verifyPayment exRegDB 99 5 = Except.error "Registration not found" ∧
    verifyPayment exRegDB 2 5 ≠ Except.error "Registration not found" :=
  ⟨(verifyPayment_spec exRegDB 99 5).1.mpr
    (by
      rintro ⟨r, hr, hid⟩
      simp [exRegDB] at hr
      rw [hr] at hid
      exact absurd hid (by decide)),
  fun h => (verifyPayment_spec exRegDB 2 5).1.mp h
    ⟨exPendingReg, by simp [exRegDB], rfl⟩⟩

/-! ## C5: createRegistration errors and initial state -/

/-- C5: `createRegistration` fails with "Affiliate not found" exactly
when no affiliate-role user carries the given code; given such an
affiliate, it fails with the single message
"Program not found or inactive" exactly when no program with the given
id is active (missing and inactive ids are indistinguishable to the
caller); and a successful registration starts with status `pending` and
null `payment_verified_at`. -/
theorem createRegistration_errors (db : DB) (input : CreateRegistrationInput)
    (now newId : Nat) :
    (createRegistration db input now newId =
        Except.error "Affiliate not found" ↔
      ¬∃ u ∈ db.users, u.affiliate_code = some input.affiliate_code ∧
        u.role = Role.affiliate) ∧
    ((∃ u ∈ db.users, u.affiliate_code = some input.affiliate_code ∧
        u.role = Role.affiliate) →
      (createRegistration db input now newId =
          Except.error "Program not found or inactive" ↔
        ¬∃ p ∈ db.programs, p.id = input.program_id ∧ p.is_active = true)) ∧
    (∀ db2 r, createRegistration db input now newId = Except.ok (db2, r) →
      r.status = RegStatus.pending ∧ r.payment_verified_at = none) := by
  cases hu : db.users.filter (fun u =>
      u.affiliate_code == some input.affiliate_code &&
      u.role == Role.affiliate) with
  | nil =>
    have hno : ¬∃ u ∈ db.users, u.affiliate_code = some input.affiliate_code ∧
        u.role = Role.affiliate := by
      rintro ⟨u, hmem, hcode, hrole⟩
      have : u ∈ db.users.filter (fun u =>
          u.affiliate_code == some input.affiliate_code &&
          u.role == Role.affiliate) :=
        List.mem_filter.mpr ⟨hmem, by simp [hcode, hrole]⟩
      rw [hu] at this
      exact absurd this (List.not_mem_nil u)
    have herr : createRegistration db input now newId =
        Except.error "Affiliate not found" := by
      rw [createRegistration, hu]
    refine ⟨⟨fun _ => hno, fun _ => herr⟩, fun hex => absurd hex hno, ?_⟩
    intro db2 r h
    rw [herr] at h
    cases h
  | cons affiliate rest =>
    have hexu : ∃ u ∈ db.users, u.affiliate_code = some input.affiliate_code ∧
        u.role = Role.affiliate := by
      have hmem : affiliate ∈ db.users.filter (fun u =>
          u.affiliate_code == some input.affiliate_code &&
          u.role == Role.affiliate) := by
        rw [hu]; exact List.mem_cons_self affiliate rest
      obtain ⟨ha, hpa⟩ := List.mem_filter.mp hmem
      refine ⟨affiliate, ha, ?_⟩
      simpa using hpa
    cases hp : db.programs.filter (fun p =>
        p.id == input.program_id && p.is_active) with
    | nil =>
      have hnop : ¬∃ p ∈ db.programs, p.id = input.program_id ∧
          p.is_active = true := by
        rintro ⟨p, hmem, hid, hact⟩
        have : p ∈ db.programs.filter (fun p =>
            p.id == input.program_id && p.is_active) :=
          List.mem_filter.mpr ⟨hmem, by simp [hid, hact]⟩
        rw [hp] at this
        exact absurd this (List.not_mem_nil p)
      have herr : createRegistration db input now newId =
          Except.error "Program not found or inactive" := by
        rw [createRegistration, hu, hp]
      refine ⟨⟨fun h => ?_, fun h => ?_⟩, fun _ => ⟨fun _ => hnop, fun _ => herr⟩, ?_⟩
      · rw [herr] at h
        injection h with h2
        exact absurd h2 (by decide)
      · exact absurd hexu h
      · intro db2 r h
        rw [herr] at h
        cases h
    | cons program rest2 =>
      have hexp : ∃ p ∈ db.programs, p.id = input.program_id ∧
          p.is_active = true := by
        have hmem : program ∈ db.programs.filter (fun p =>
            p.id == input.program_id && p.is_active) := by
          rw [hp]; exact List.mem_cons_self program rest2
        obtain ⟨ha, hpa⟩ := List.mem_filter.mp hmem
        refine ⟨program, ha, ?_⟩
        simpa using hpa
      have hne : ∀ e, createRegistration db input now newId ≠ Except.error e := by
        intro e h
        rw [createRegistration, hu, hp] at h
        cases h
      refine ⟨⟨fun h => absurd h (hne _), fun h => absurd hexu h⟩,
        fun _ => ⟨fun h => absurd h (hne _), fun h => absurd hexp h⟩, ?_⟩
      intro db2 r h
      rw [createRegistration, hu, hp] at h
      injection h with h1
      injection h1 with hdb hr2
      rw [← hr2]
      exact ⟨rfl, rfl⟩

/-- Witness for C5: with the affiliate present, registering against the
active program 3 succeeds with a pending, unverified record. -/
theorem createRegistration_errors_witness :
    (createRegistration exRegDB exRegInput 0 9).map
        (fun x => (x.2.status, x.2.payment_verified_at)) =
      Except.ok (RegStatus.pending, (none : Option Nat)) := by
  obtain ⟨db2, r, heq⟩ :
      ∃ db2 r, createRegistration exRegDB exRegInput 0 9 =
        Except.ok (db2, r) := ⟨_, _, rfl⟩
  obtain ⟨h1, h2⟩ :=
    (createRegistration_errors exRegDB exRegInput 0 9).2.2 db2 r heq
  rw [heq]
  simp [Except.map, h1, h2]

/-! ## C1: payout balance check -/

/-- C1: for an existing affiliate-role user, `createPayoutRequest`
computes the available balance as the sum of `commission_amount` over
the affiliate's `payment_verified` registrations minus the sum of
`amount` over all of the affiliate's payout requests regardless of
status; it fails with the insufficient-balance error exactly when the
requested amount strictly exceeds this balance (an equal amount
succeeds), any failure is that error and returns no new store, and on
success the single appended payout is the returned `pending` request. -/
theorem createPayoutRequest_balance_rule (db : DB) (affiliateId : Nat)
    (input : CreatePayoutRequestInput) (now newId : Nat)
    (haff : ∃ u ∈ db.users, u.id = affiliateId ∧ u.role = Role.affiliate) :
    availableCommission db affiliateId =
      ((db.registrations.filter (fun r =>
        r.affiliate_id == affiliateId &&
        r.status == RegStatus.payment_verified)).map
          (fun r => r.commission_amount)).sum -
      ((db.payouts.filter (fun p => p.affiliate_id == affiliateId)).map
          (fun p => p.amount)).sum ∧
    (createPayoutRequest db affiliateId input now newId =
        Except.error "Insufficient verified commission balance" ↔
      availableCommission db affiliateId < input.amount) ∧
    (∀ e, createPayoutRequest db affiliateId input now newId =
        Except.error e → e = "Insufficient verified commission balance") ∧
    (∀ db2 r, createPayoutRequest db affiliateId input now newId =
        Except.ok (db2, r) →
      db2.payouts = db.payouts ++ [r] ∧ r.status = PayStatus.pending ∧
      r.amount = input.amount ∧
      input.amount ≤ availableCommission db affiliateId) := by
  obtain ⟨u, hu, hid, hrole⟩ := haff
  have hne : (db.users.filter (fun v =>
      v.id == affiliateId && v.role == Role.affiliate)).isEmpty = false :=
    filter_isEmpty_eq_false_of_mem hu (by simp [hid, hrole])
  have hbal : availableCommission db affiliateId =
      ((db.registrations.filter (fun r =>
        r.affiliate_id == affiliateId &&
        r.status == RegStatus.payment_verified)).map
          (fun r => r.commission_amount)).sum -
      ((db.payouts.filter (fun p => p.affiliate_id == affiliateId)).map
          (fun p => p.amount)).sum := by
    simp [availableCommission, totalVerifiedCommission, totalPayoutRequests,
      sqlSum_getD_eq_sum]
  by_cases hlt : availableCommission db affiliateId < input.amount
  · have herr : createPayoutRequest db affiliateId input now newId =
        Except.error "Insufficient verified commission balance" := by
      rw [createPayoutRequest, if_neg (by simp [hne]), if_pos hlt]
    refine ⟨hbal, ⟨fun _ => hlt, fun _ => herr⟩, ?_, ?_⟩
    · intro e h
      rw [herr] at h
      injection h with h2
      exact h2.symm
    · intro db2 r h
      rw [herr] at h
      cases h
  · have hnoterr : ∀ e, createPayoutRequest db affiliateId input now newId ≠
        Except.error e := by
      intro e h
      rw [createPayoutRequest, if_neg (by simp [hne]), if_neg hlt] at h
      cases h
    refine ⟨hbal, ⟨fun h => absurd h (hnoterr _), fun h => absurd h hlt⟩,
      fun e h => absurd h (hnoterr e), ?_⟩
    intro db2 r h
    rw [createPayoutRequest, if_neg (by simp [hne]), if_neg hlt] at h
    injection h with h1
    injection h1 with hdb hr2
    refine ⟨by rw [← hdb, ← hr2], by rw [← hr2], by rw [← hr2],
      not_lt.mp hlt⟩

/-- Witness for C1 at the §8 scenario (verified commission 100,000,
prior payout 60,000, balance 40,000): a request for 50,000 is rejected
with the insufficient-balance error and a request for exactly 40,000
does not fail. -/
theorem createPayoutRequest_balance_rule_witness :
    createPayoutRequest exPayoutDB 1 exPayoutInput50 10 2 =
      Except.error "Insufficient verified commission balance" ∧
    createPayoutRequest exPayoutDB 1 exPayoutInput40 10 2 ≠
      Except.error "Insufficient verified commission balance" := by
  have h50 := createPayoutRequest_balance_rule exPayoutDB 1 exPayoutInput50 10 2
    ⟨exAffiliate, by simp [exPayoutDB], rfl, rfl⟩
  have h40 := createPayoutRequest_balance_rule exPayoutDB 1 exPayoutInput40 10 2
    ⟨exAffiliate, by simp [exPayoutDB], rfl, rfl⟩
  have havail : availableCommission exPayoutDB 1 = 40000 := by
    norm_num [availableCommission, totalVerifiedCommission, totalPayoutRequests,
      sqlSum, exPayoutDB, exVerifiedReg, exPriorPayout, List.filter]
  constructor
  · exact h50.2.1.mpr (by rw [havail]; norm_num [exPayoutInput50])
  · intro he
    have := h40.2.1.mp he
    rw [havail] at this
    norm_num [exPayoutInput40] at this

/-! ## C3: inline commission vs calculateCommission -/

/-- Counterexample for C3: on the negative-rate flat program the two
computations disagree — `createRegistration` accepts the program and
stores commission -50,000 while `calculateCommission` clamps to 0, so
they do not agree on every input. -/
theorem createRegistration_missing_clamp_cex :
    (createRegistration negRateDB negRateRegInput 0 1).map
        (fun x => x.2.commission_amount) = Except.ok (-50000 : ℚ) ∧
    calculateCommission negativeFlatProgram = 0 ∧
    ((-50000 : ℚ) ≠ 0) := by
  refine ⟨rfl, ?_, by norm_num⟩
  have h1 : calculateCommission negativeFlatProgram = max 0 (-50000 : ℚ) := rfl
  rw [h1]
  norm_num

/-- C3 amended: the inline computation of `createRegistration` agrees
with `calculateCommission` exactly on the programs whose computed
commission is non-negative (in particular on every program with
non-negative rate and fee); `createRegistration` stores the unclamped
inline value of the accepted active program. -/
theorem commission_agreement_amended :
    (∀ program : Program, 0 ≤ inlineCommission program →
      calculateCommission program = inlineCommission program) ∧
    (∀ (db : DB) (input : CreateRegistrationInput) (now newId : Nat)
        (db2 : DB) (r : Registration),
      createRegistration db input now newId = Except.ok (db2, r) →
      ∃ program ∈ db.programs, program.id = input.program_id ∧
        program.is_active = true ∧
        r.commission_amount = inlineCommission program) := by
  constructor
  · intro program hpos
    cases hct : program.commission_type with
    | percentage =>
      rw [inlineCommission, if_pos (by simp [hct])] at hpos ⊢
      rw [calculateCommission]
      simp only [hct]
      exact max_eq_right hpos
    | flat =>
      rw [inlineCommission, if_neg (by simp [hct])] at hpos ⊢
      rw [calculateCommission]
      simp only [hct]
      exact max_eq_right hpos
  · intro db input now newId db2 r h
    rw [createRegistration] at h
    cases hu : db.users.filter (fun u =>
        u.affiliate_code == some input.affiliate_code &&
        u.role == Role.affiliate) with
    | nil => rw [hu] at h; cases h
    | cons affiliate rest =>
      rw [hu] at h
      cases hp : db.programs.filter (fun p =>
          p.id == input.program_id && p.is_active) with
      | nil => rw [hp] at h; cases h
      | cons program rest2 =>
        rw [hp] at h
        injection h with h1
        injection h1 with hdb hr2
        have hmem : program ∈ db.programs.filter (fun p =>
            p.id == input.program_id && p.is_active) := by
          rw [hp]; exact List.mem_cons_self program rest2
        obtain ⟨hm, hpred⟩ := List.mem_filter.mp hmem
        have hpred2 : program.id = input.program_id ∧ program.is_active = true := by
          simpa using hpred
        exact ⟨program, hm, hpred2.1, hpred2.2, by rw [← hr2]⟩

/-- Witness for C3 amended: on the active 10 % program the two
computations agree (fee 1,000,000 → commission 100,000). -/
theorem commission_agreement_amended_witness :
    calculateCommission exProgram = inlineCommission exProgram :=
  commission_agreement_amended.1 exProgram
    (by norm_num [inlineCommission, exProgram])

/-! ## C6: processed_at behavior across status updates -/

/-- Counterexample for C6: a second `paid` update re-stamps
`processed_at` (time 3 then time 4), so it is not set exactly once and
does not keep the timestamp of the first transition to `paid`. -/
theorem updatePayoutStatus_restamps_cex :
    ((runPayoutUpdates exStatusDB
        [({ id := 1, status := PayStatus.paid }, 3)]).payouts.map
      (fun p => p.processed_at)) = [some 3] ∧
    ((runPayoutUpdates exStatusDB
        [({ id := 1, status := PayStatus.paid }, 3),
         ({ id := 1, status := PayStatus.paid }, 4)]).payouts.map
      (fun p => p.processed_at)) = [some 4] ∧
    some (4 : Nat) ≠ some 3 := by
  refine ⟨rfl, rfl, by simp⟩

/-- Single-step preservation: a successful `updatePayoutStatus` never
turns a non-null `processed_at` back into null. -/
theorem processed_at_none_step (db : DB) (input : UpdatePayoutStatusInput)
    (now : Nat) (i : Nat) (db2 : DB)
    (h : updatePayoutStatus db input now = Except.ok db2)
    (hnone : (db2.payouts.map (fun p => p.processed_at))[i]? = some none) :
    (db.payouts.map (fun p => p.processed_at))[i]? = some none := by
  have hpay : db2.payouts = db.payouts.map (applyPayoutUpdate input now) := by
    rw [updatePayoutStatus] at h
    by_cases hemp : (db.payouts.filter (fun p => p.id == input.id)).isEmpty = true
    · rw [if_pos hemp] at h; cases h
    · rw [if_neg hemp] at h
      injection h with h1
      rw [← h1]
  rw [hpay, List.map_map, List.getElem?_map] at hnone
  rw [List.getElem?_map]
  cases hget : db.payouts[i]? with
  | none => rw [hget] at hnone; cases hnone
  | some p =>
    rw [hget] at hnone
    simp only [Option.map_some', Option.some.injEq] at hnone ⊢
    have : (applyPayoutUpdate input now p).processed_at = none := hnone
    rw [applyPayoutUpdate] at this
    by_cases hmatch : (p.id == input.id) = true
    · rw [if_pos hmatch] at this
      by_cases hpaid : (input.status == PayStatus.paid) = true
      · simp only [if_pos hpaid] at this
        cases this
      · simpa only [if_neg hpaid] using this
    · rwa [if_neg hmatch] at this

/-- C6 amended: the code sets `processed_at := now` on every update
whose new status is `paid` (so a later `paid` update re-stamps it), a
`pending` update leaves it untouched (never cleared), and hence over
any sequence of `updatePayoutStatus` calls a slot whose `processed_at`
is still null at the end was null at the start — once set it stays
non-null, though not necessarily at the first `paid` timestamp. -/
theorem processed_at_behavior_amended :
    (∀ (db : DB) (input : UpdatePayoutStatusInput) (now : Nat) (db2 : DB),
      updatePayoutStatus db input now = Except.ok db2 →
      db2.payouts = db.payouts.map (applyPayoutUpdate input now)) ∧
    (∀ (input : UpdatePayoutStatusInput) (now : Nat) (p : PayoutRequest),
      p.id = input.id → input.status = PayStatus.paid →
      (applyPayoutUpdate input now p).processed_at = some now) ∧
    (∀ (input : UpdatePayoutStatusInput) (now : Nat) (p : PayoutRequest),
      input.status = PayStatus.pending →
      (applyPayoutUpdate input now p).processed_at = p.processed_at) ∧
    (∀ (cmds : List (UpdatePayoutStatusInput × Nat)) (db : DB) (i : Nat),
      ((runPayoutUpdates db cmds).payouts.map (fun p => p.processed_at))[i]? =
        some none →
      (db.payouts.map (fun p => p.processed_at))[i]? = some none) := by
  refine ⟨?_, ?_, ?_, ?_⟩
  · intro db input now db2 h
    rw [updatePayoutStatus] at h
    by_cases hemp : (db.payouts.filter (fun p => p.id == input.id)).isEmpty = true
    · rw [if_pos hemp] at h; cases h
    · rw [if_neg hemp] at h
      injection h with h1
      rw [← h1]
  · intro input now p hid hst
    rw [applyPayoutUpdate, if_pos (by simp [hid])]
    rw [hst]
    rfl
  · intro input now p hst
    rw [applyPayoutUpdate]
    by_cases hmatch : (p.id == input.id) = true
    · rw [if_pos hmatch, hst]
      rfl
    · rw [if_neg hmatch]
  · intro cmds
    induction cmds with
    | nil =>
      intro db i h
      simpa [runPayoutUpdates] using h
    | cons c cs ih =>
      intro db i h
      cases hupd : updatePayoutStatus db c.1 c.2 with
      | ok d2 =>
        have hrun : runPayoutUpdates db (c :: cs) = runPayoutUpdates d2 cs := by
          simp [runPayoutUpdates, hupd]
        rw [hrun] at h
        exact processed_at_none_step db c.1 c.2 i d2 hupd (ih d2 i h)
      | error e =>
        have hrun : runPayoutUpdates db (c :: cs) = runPayoutUpdates db cs := by
          simp [runPayoutUpdates, hupd]
        rw [hrun] at h
        exact ih db i h

/-- Witness for C6 amended: applying a `paid` update at time 3 to the
pending payout stamps `processed_at = some 3`. -/
theorem processed_at_behavior_amended_witness :
    (applyPayoutUpdate { id := 1, status := PayStatus.paid } 3
      exPriorPayout).processed_at = some 3 :=
  processed_at_behavior_amended.2.1 { id := 1, status := PayStatus.paid } 3
    exPriorPayout rfl rfl

/-! ## C9: inconsistent existence checks on per-affiliate reads -/

/-- C9: for an id that belongs to no affiliate-role user (missing or an
admin's id) in a store whose activity rows all reference affiliate-role
users, `getPayoutRequestsByAffiliate` throws "Affiliate not found"
while `getRegistrationsByAffiliate`, `getLinkClicksByAffiliate` and
`getAffiliateStats` succeed with an empty list resp. all-zero stats. -/
theorem perAffiliateReads_inconsistency (db : DB) (affiliateId : Nat)
    (haff : ¬∃ u ∈ db.users, u.id = affiliateId ∧ u.role = Role.affiliate)
    (hregs : ∀ r ∈ db.registrations, ∃ u ∈ db.users,
      u.id = r.affiliate_id ∧ u.role = Role.affiliate)
    (hclicks : ∀ c ∈ db.linkClicks, ∃ u ∈ db.users,
      u.id = c.affiliate_id ∧ u.role = Role.affiliate) :
    getPayoutRequestsByAffiliate db affiliateId =
      Except.error "Affiliate not found" ∧
    getRegistrationsByAffiliate db affiliateId = Except.ok [] ∧
    getLinkClicksByAffiliate db affiliateId = Except.ok [] ∧
    getAffiliateStats db affiliateId = Except.ok
      { total_clicks := 0
        total_registrations := 0
        total_commission := 0
        pending_commission := 0
        verified_commission := 0 } := by
  have hfil : db.users.filter (fun u =>
      u.id == affiliateId && u.role == Role.affiliate) = [] :=
    List.filter_eq_nil_iff.mpr (fun u hu hpred =>
      haff ⟨u, hu, by simpa using hpred⟩)
  have hrf : db.registrations.filter (fun r =>
      r.affiliate_id == affiliateId) = [] :=
    List.filter_eq_nil_iff.mpr (fun r hr hpred => by
      have hid : r.affiliate_id = affiliateId := by simpa using hpred
      obtain ⟨u, hu, huid, hurole⟩ := hregs r hr
      exact haff ⟨u, hu, huid.trans hid, hurole⟩)
  have hrp : db.registrations.filter (fun r =>
      r.affiliate_id == affiliateId && r.status == RegStatus.pending) = [] :=
    List.filter_eq_nil_iff.mpr (fun r hr hpred => by
      have hid : r.affiliate_id = affiliateId := by
        have := hpred
        simp at this
        exact this.1
      obtain ⟨u, hu, huid, hurole⟩ := hregs r hr
      exact haff ⟨u, hu, huid.trans hid, hurole⟩)
  have hrv : db.registrations.filter (fun r =>
      r.affiliate_id == affiliateId &&
      r.status == RegStatus.payment_verified) = [] :=
    List.filter_eq_nil_iff.mpr (fun r hr hpred => by
      have hid : r.affiliate_id = affiliateId := by
        have := hpred
        simp at this
        exact this.1
      obtain ⟨u, hu, huid, hurole⟩ := hregs r hr
      exact haff ⟨u, hu, huid.trans hid, hurole⟩)
  have hcf : db.linkClicks.filter (fun c =>
      c.affiliate_id == affiliateId) = [] :=
    List.filter_eq_nil_iff.mpr (fun c hc hpred => by
      have hid : c.affiliate_id = affiliateId := by simpa using hpred
      obtain ⟨u, hu, huid, hurole⟩ := hclicks c hc
      exact haff ⟨u, hu, huid.trans hid, hurole⟩)
  refine ⟨?_, ?_, ?_, ?_⟩
  · rw [getPayoutRequestsByAffiliate, if_pos (by simp [hfil])]
  · rw [getRegistrationsByAffiliate, hrf]
  · rw [getLinkClicksByAffiliate, hcf]
  · simp [getAffiliateStats, hcf, hrf, hrp, hrv, sqlSum]

/-- Witness for C9 at the admin's id 2: the payout read errors while
the three other reads return empty or zero results. -/
theorem perAffiliateReads_inconsistency_witness :
    getPayoutRequestsByAffiliate adminOnlyDB 2 =
      Except.error "Affiliate not found" ∧
    getRegistrationsByAffiliate adminOnlyDB 2 = Except.ok [] ∧
    getLinkClicksByAffiliate adminOnlyDB 2 = Except.ok [] ∧
    getAffiliateStats adminOnlyDB 2 = Except.ok
      { total_clicks := 0
        total_registrations := 0
        total_commission := 0
        pending_commission := 0
        verified_commission := 0 } :=
  perAffiliateReads_inconsistency adminOnlyDB 2
    (by
      rintro ⟨u, hu, hid, hrole⟩
      simp [adminOnlyDB] at hu
      rw [hu] at hrole
      exact absurd hrole (by decide))
    (by intro r hr; simp [adminOnlyDB] at hr)
    (by intro c hc; simp [adminOnlyDB] at hc)

/-! ## C7: affiliate code generation -/

/-- Counterexample for C7: the codes produced by the generators do not
share one fixed suffix length after the constant `AFF` prefix — a fresh
random candidate gives an 8-character code (5-character suffix), the
timestamp fallback of `generateUniqueAffiliateCode` gives a
9-character code (6-digit suffix), and `registerUser`'s own generator
builds a timestamp-dependent suffix of yet another length. -/
theorem affiliateCode_length_mismatch_cex :
    generateUniqueAffiliateCode negRateDB ["ab12c"] 123456789 = "AFFAB12C" ∧
    ("AFFAB12C".length = 8) ∧
    generateUniqueAffiliateCode negRateDB (List.replicate 10 "123")
      123456789 = "AFF456789" ∧
    ("AFF456789".length = 9) ∧
    generateAffiliateCode 0 "ab12c" = "AFF0AB12C" ∧
    ("AFF0AB12C".length = 9) ∧
    (8 : Nat) ≠ 9 := by
  refine ⟨rfl, rfl, rfl, rfl, rfl, rfl, by norm_num⟩

/-- Codes accepted by `genCodeLoop` are `AFF`-prefixed uppercased
candidates and are fresh with respect to the store. -/
theorem genCodeLoop_some_spec (db : DB) :
    ∀ (cands : List String) (n : Nat) (code : String),
      genCodeLoop db cands n = some code →
      (∃ cand, code = "AFF" ++ strUpper cand) ∧
      codeExists db code = false := by
  intro cands
  induction cands with
  | nil =>
    intro n code h
    cases n <;> simp [genCodeLoop] at h
  | cons cand rest ih =>
    intro n code h
    cases n with
    | zero => simp [genCodeLoop] at h
    | succ m =>
      rw [genCodeLoop] at h
      by_cases hex : codeExists db ("AFF" ++ strUpper cand) = true
      · rw [if_pos hex] at h
        exact ih m code h
      · rw [if_neg hex] at h
        injection h with h1
        subst h1
        exact ⟨⟨cand, rfl⟩, by simpa using hex⟩

/-- `genCodeLoop` examines at most `n` candidates. -/
theorem genCodeLoop_take (db : DB) :
    ∀ (cands : List String) (n : Nat),
      genCodeLoop db (cands.take n) n = genCodeLoop db cands n := by
  intro cands
  induction cands with
  | nil => intro n; rw [List.take_nil]
  | cons cand rest ih =>
    intro n
    cases n with
    | zero => rfl
    | succ m =>
      rw [List.take_succ_cons, genCodeLoop, genCodeLoop]
      by_cases hex : codeExists db ("AFF" ++ strUpper cand) = true
      · rw [if_pos hex, if_pos hex]
        exact ih m
      · rw [if_neg hex, if_neg hex]

/-- A code accepted by `registerUser`'s retry loop comes from the
generator stream and is fresh. -/
theorem registerCodeLoop_some_spec (db : DB) (gen : Nat → String) :
    ∀ (fuel i : Nat) (code : String),
      registerCodeLoop db gen i fuel = some code →
      ∃ j, code = gen j ∧ codeExists db code = false := by
  intro fuel
  induction fuel with
  | zero => intro i code h; simp [registerCodeLoop] at h
  | succ m ih =>
    intro i code h
    rw [registerCodeLoop] at h
    by_cases hex : codeExists db (gen i) = true
    · rw [if_pos hex] at h
      exact ih (i + 1) code h
    · rw [if_neg hex] at h
      injection h with h1
      subst h1
      exact ⟨i, rfl, by simpa using hex⟩

/-- C7 amended: every generated code carries the constant `AFF` prefix,
and the two generators differ beyond that: `generateUniqueAffiliateCode`
checks at most 10 candidates against existing codes and then falls back
to the timestamp code (whose 6-digit suffix differs in length from the
5-character random suffix), while the code assigned by `registerUser`
comes from its own generator (`AFF` + base-36 timestamp + random part,
no fixed suffix length) through an unbounded retry loop with no
fallback — an always-colliding stream defeats every finite bound. -/
theorem affiliateCode_generation_amended :
    (∀ (db : DB) (cands : List String) (t : Nat),
      ∃ s, generateUniqueAffiliateCode db cands t = "AFF" ++ s) ∧
    (∀ (db : DB) (cands : List String) (t : Nat),
      generateUniqueAffiliateCode db (cands.take 10) t =
        generateUniqueAffiliateCode db cands t) ∧
    (∀ (db : DB) (cands : List String) (t : Nat) (code : String),
      genCodeLoop db cands 10 = some code →
      generateUniqueAffiliateCode db cands t = code ∧
      codeExists db code = false) ∧
    (∀ (db : DB) (cands : List String) (t : Nat),
      genCodeLoop db cands 10 = none →
      generateUniqueAffiliateCode db cands t = "AFF" ++ lastSix t) ∧
    (∀ (t : Nat) (rand : String),
      ∃ s, generateAffiliateCode t rand = "AFF" ++ s) ∧
    (∀ (db : DB) (gen : Nat → String) (fuel i : Nat) (code : String),
      registerCodeLoop db gen i fuel = some code →
      ∃ j, code = gen j ∧ codeExists db code = false) ∧
    (∀ fuel i : Nat,
      registerCodeLoop negRateDB (fun _ => "AFF123") i fuel = none) := by
  have hfallback : ∀ (db : DB) (cands : List String) (t : Nat),
      genCodeLoop db cands 10 = none →
      generateUniqueAffiliateCode db cands t = "AFF" ++ lastSix t := by
    intro db cands t h
    rw [generateUniqueAffiliateCode, h]
  have hsome : ∀ (db : DB) (cands : List String) (t : Nat) (code : String),
      genCodeLoop db cands 10 = some code →
      generateUniqueAffiliateCode db cands t = code ∧
      codeExists db code = false := by
    intro db cands t code h
    exact ⟨by rw [generateUniqueAffiliateCode, h],
      (genCodeLoop_some_spec db cands 10 code h).2⟩
  refine ⟨?_, ?_, hsome, hfallback, ?_, registerCodeLoop_some_spec, ?_⟩
  · intro db cands t
    cases h : genCodeLoop db cands 10 with
    | none => exact ⟨lastSix t, hfallback db cands t h⟩
    | some code =>
      obtain ⟨⟨cand, hc⟩, _⟩ := genCodeLoop_some_spec db cands 10 code h
      exact ⟨strUpper cand, by rw [(hsome db cands t code h).1, hc]⟩
  · intro db cands t
    rw [generateUniqueAffiliateCode, generateUniqueAffiliateCode,
      genCodeLoop_take]
  · intro t rand
    exact ⟨toBase36Upper t ++ strUpper rand, rfl⟩
  · intro fuel
    induction fuel with
    | zero => intro i; rfl
    | succ m ih =>
      intro i
      rw [registerCodeLoop, if_pos (by rfl)]
      exact ih (i + 1)

/-- Witness for C7 amended: with ten colliding candidates the loop
exhausts its 10 attempts and the fallback code is the timestamp one. -/
theorem affiliateCode_generation_amended_witness :
    generateUniqueAffiliateCode negRateDB (List.replicate 10 "123")
      123456789 = "AFF" ++ lastSix 123456789 :=
  affiliateCode_generation_amended.2.2.2.1 negRateDB
    (List.replicate 10 "123") 123456789 rfl

end AffiliateSystem
